import Mathlib

/-!
Shallow embedding of the book-hive-server borrow/catalog logic.

The TypeScript source is embedded as pure Lean functions over an explicit
store state.  Books are kept as an association list keyed by their ObjectId
hex string, borrow records as a plain list.  Machine numbers that the
source validates as integers (`copies`, `quantity`) are embedded as `Int`;
timestamps (`Date` values) as `Nat` milliseconds since the epoch.  Each
controller becomes a function from the state (plus the current time, since
the source consults `new Date()`) to a result and a successor state.
-/

namespace BookHive

/-- A catalog entry, from `bookSchema` in `src/app/models/book.model.ts`.
`copies` is validated as a nonnegative integer by the schema; `available`
defaults to `true`. `createdAt` comes from the schema timestamps option. -/
structure Book where
  title : String
  author : String
  genre : String
  isbn : String
  description : Option String
  copies : Int
  available : Bool
  createdAt : Nat
deriving Repr, DecidableEq

/-- A borrow ledger entry, from `borrowSchema` in
`src/app/models/borrow.model.ts`: a book reference (ObjectId hex string),
a quantity at least 1, a due date, and the timestamps-option `createdAt`. -/
structure BorrowRec where
  book : String
  quantity : Int
  dueDate : Nat
  createdAt : Nat
deriving Repr, DecidableEq

/-- The persistent store: the books collection (keyed by ObjectId string)
and the borrows collection. -/
structure St where
  books : List (String × Book)
  borrows : List BorrowRec
deriving Repr, DecidableEq

/-- The empty database. -/
def St.empty : St := ⟨[], []⟩

/-- Embeds `mongoose.Types.ObjectId.isValid` for string input: a 24
character hex string. -/
def isValidObjectId (s : String) : Bool :=
  s.length == 24 && s.toList.all fun c =>
    c.isDigit || (97 ≤ c.toNat && c.toNat ≤ 102) || (65 ≤ c.toNat && c.toNat ≤ 70)

/-- Look a book up by id, as `Book.findById`. -/
def findBook (s : St) (id : String) : Option Book :=
  List.lookup id s.books

/-- Replace the stored document for `id` by `b`, the effect of a mongoose
`save` of a fetched document. -/
def putBook (s : St) (id : String) (b : Book) : St :=
  { s with books := s.books.map fun p => if p.1 = id then (p.1, b) else p }

/-- Embeds the `bookSchema.pre("save")` hook: zero or negative copies force
`available := false`, positive copies with `available == false` force
`available := true`. -/
def preSaveBook (b : Book) : Book :=
  if b.copies ≤ 0 then { b with available := false }
  else if b.copies > 0 && !b.available then { b with available := true }
  else b

/-- Embeds the `bookSchema` validators that `save` runs: required nonempty
(trimmed) bounded strings, nonnegative `copies` (integrality is carried by
the `Int` type). -/
def validBook (b : Book) : Bool :=
  let t := b.title.trim
  let a := b.author.trim
  let d := (b.description.getD "").trim
  !t.isEmpty && t.length ≤ 200 &&
  !a.isEmpty && a.length ≤ 100 &&
  !b.genre.trim.isEmpty && !b.isbn.trim.isEmpty &&
  d.length ≤ 1000 && 0 ≤ b.copies

/-- Result alternatives of `borrowBook` in
`src/app/controller/borrow.controller.ts`: the 400 invalid-id response, the
400 quantity response, the 400 due-date response, the 404 book-not-found
response, the 400 not-enough-copies response, and the 201 success. -/
inductive BorrowRes where
  | invalidId
  | invalidQuantity
  | dueDateNotFuture
  | notFound
  | insufficientCopies
  | success
deriving Repr, DecidableEq

/-- The 400-status responses of `borrowBook` that report malformed input
(invalid id format, quantity below 1, due date not in the future). -/
def BorrowRes.isValidationError : BorrowRes → Bool
  | .invalidId => true
  | .invalidQuantity => true
  | .dueDateNotFuture => true
  | _ => false

/-- Book update performed when a borrow record is saved, from the
`borrowSchema.post("save")` middleware in the source (decrement `copies`
by the borrowed quantity, clear `available` at zero, then `book.save()`
which runs the book pre-save hook). -/
def applyBorrowToBook (b : Book) (quantity : Int) : Book :=
  preSaveBook
    (let b1 := { b with copies := b.copies - quantity }
     if b1.copies ≤ 0 then { b1 with available := false } else b1)

/-- Embeds `borrowBook` from `src/app/controller/borrow.controller.ts`
composed with the borrow-schema save middleware: validate the id format,
the quantity and the due date, fetch the book, check
`available && copies >= quantity`, then create the borrow record, whose
save decrements the book stock.  `now` is the value of `new Date()`;
`dueDate = none` embeds an absent (falsy) due date in the request body. -/
def borrowBook (s : St) (now : Nat) (bookId : String) (quantity : Int)
    (dueDate : Option Nat) : BorrowRes × St :=
  if !isValidObjectId bookId then (.invalidId, s)
  else if quantity < 1 then (.invalidQuantity, s)
  else
    match dueDate with
    | none => (.dueDateNotFuture, s)
    | some d =>
      if d ≤ now then (.dueDateNotFuture, s)
      else
        match findBook s bookId with
        | none => (.notFound, s)
        | some b =>
          if !b.available || b.copies < quantity then (.insufficientCopies, s)
          else
            let rec₀ : BorrowRec := ⟨bookId, quantity, d, now⟩
            let s1 := { s with borrows := s.borrows ++ [rec₀] }
            (.success, putBook s1 bookId (applyBorrowToBook b quantity))

/-- A request body for the book endpoints: `undefined` JSON fields are
`none`.  Casting by the schema trims the strings. -/
structure BookBody where
  title : Option String
  author : Option String
  genre : Option String
  isbn : Option String
  description : Option String
  copies : Option Int
  available : Option Bool
deriving Repr, DecidableEq

/-- Result alternatives of `createBook` in
`src/app/controller/book.controller.ts`: 400 validation failure, 400
duplicate ISBN (Mongo error 11000 on the unique index), 201 created. -/
inductive CreateRes where
  | validationError
  | duplicateIsbn
  | created
deriving Repr, DecidableEq

/-- Casting of a create body by the schema: all required fields must be
present (else a required-validator failure), strings are trimmed and
`available` defaults to `true`. -/
def castNewBook (now : Nat) (body : BookBody) : Option Book :=
  match body.title, body.author, body.genre, body.isbn, body.copies with
  | some t, some a, some g, some i, some c =>
    some
      { title := t.trim, author := a.trim, genre := g.trim, isbn := i.trim
        description := body.description.map String.trim, copies := c
        available := body.available.getD true, createdAt := now }
  | _, _, _, _, _ => none

/-- Embeds `createBook`: `Book.create(req.body)` casts the body,
validates, runs the pre-save hook and inserts; a missing required field or
failed validator yields the ValidationError branch and the unique ISBN
index the duplicate (Mongo 11000) branch. -/
def createBook (s : St) (now : Nat) (newId : String) (body : BookBody) :
    CreateRes × St :=
  match castNewBook now body with
  | none => (.validationError, s)
  | some b =>
    if !validBook b then (.validationError, s)
    else if s.books.any (fun p => p.2.isbn == b.isbn) then (.duplicateIsbn, s)
    else (.created, { s with books := s.books ++ [(newId, preSaveBook b)] })

/-- The `Object.assign(book, req.body)` step of `updateBook`: supplied
fields overwrite the stored document (schema casting trims strings). -/
def assignBody (b : Book) (body : BookBody) : Book :=
  { title := (body.title.map String.trim).getD b.title
    author := (body.author.map String.trim).getD b.author
    genre := (body.genre.map String.trim).getD b.genre
    isbn := (body.isbn.map String.trim).getD b.isbn
    description := (body.description.map String.trim).orElse fun _ => b.description
    copies := body.copies.getD b.copies
    available := body.available.getD b.available
    createdAt := b.createdAt }

/-- Result alternatives of `updateBook`. -/
inductive UpdateRes where
  | invalidId
  | notFound
  | validationError
  | duplicateIsbn
  | updated
deriving Repr, DecidableEq

/-- The availability rule `updateBook` applies after `Object.assign`: zero
or negative copies force unavailable; positive copies force available
unless the body explicitly carried `available: false`. -/
def updateAvailRule (b1 : Book) (bodyAvail : Option Bool) : Book :=
  if b1.copies ≤ 0 then { b1 with available := false }
  else if b1.copies > 0 && bodyAvail != some false then
    { b1 with available := true }
  else b1

/-- Embeds `updateBook` from `src/app/controller/book.controller.ts`:
validate the id, fetch, `Object.assign` the body, apply the controller's
availability rule, then `book.save()` with its validation and pre-save
hook. -/
def updateBook (s : St) (id : String) (body : BookBody) : UpdateRes × St :=
  if !isValidObjectId id then (.invalidId, s)
  else
    match findBook s id with
    | none => (.notFound, s)
    | some b =>
      let b2 := updateAvailRule (assignBody b body) body.available
      if !validBook b2 then (.validationError, s)
      else if s.books.any (fun p => p.1 ≠ id && p.2.isbn == b2.isbn) then
        (.duplicateIsbn, s)
      else (.updated, putBook s id (preSaveBook b2))

/-- Result alternatives of `updateBookAvailability` and `deleteBook`. -/
inductive SimpleRes where
  | invalidId
  | notFound
  | ok
deriving Repr, DecidableEq

/-- Embeds `updateBookAvailability`: fetch the book and run the
`updateAvailability` instance method, which sets
`available := copies > 0` and saves. -/
def updateBookAvailability (s : St) (id : String) : SimpleRes × St :=
  if !isValidObjectId id then (.invalidId, s)
  else
    match findBook s id with
    | none => (.notFound, s)
    | some b =>
      (.ok, putBook s id (preSaveBook { b with available := decide (0 < b.copies) }))

/-- Embeds `deleteBook` from `src/app/controller/book.controller.ts`:
validate the id, fetch, then `Borrow.deleteMany({ book: id })` followed by
`Book.findByIdAndDelete(id)`. -/
def deleteBook (s : St) (id : String) : SimpleRes × St :=
  if !isValidObjectId id then (.invalidId, s)
  else
    match findBook s id with
    | none => (.notFound, s)
    | some _ =>
      (.ok, { books := s.books.filter fun p => p.1 ≠ id
              borrows := s.borrows.filter fun r => r.book ≠ id })

/-- A mutating API call, for stating invariants over operation sequences. -/
inductive Op where
  | create (now : Nat) (newId : String) (body : BookBody)
  | update (id : String) (body : BookBody)
  | updAvail (id : String)
  | borrow (now : Nat) (bookId : String) (quantity : Int) (dueDate : Option Nat)
  | delete (id : String)
deriving Repr

/-- State transition of one mutating API call. -/
def applyOp (s : St) : Op → St
  | .create now newId body => (createBook s now newId body).2
  | .update id body => (updateBook s id body).2
  | .updAvail id => (updateBookAvailability s id).2
  | .borrow now bookId q d => (borrowBook s now bookId q d).2
  | .delete id => (deleteBook s id).2

/-- State after a sequence of mutating API calls. -/
def applyOps (s : St) (ops : List Op) : St := ops.foldl applyOp s

/-- The spec's per-book invariant: `available == (copies > 0)` and
`copies ≥ 0`. -/
def bookInv (b : Book) : Prop :=
  b.available = decide (0 < b.copies) ∧ 0 ≤ b.copies

/-- The invariant over the whole store. -/
def storeInv (s : St) : Prop := ∀ p ∈ s.books, bookInv p.2

instance (b : Book) : Decidable (bookInv b) := by
  unfold bookInv; infer_instance

instance (s : St) : Decidable (storeInv s) := by
  unfold storeInv; exact List.decidableBAll _ _

/-! A small-step view of one borrow request, exposing its two store
accesses: the `findById` read (after which the availability test runs on
the fetched document) and the write that persists the decremented copy
count and the new borrow record.  Sequentially, running both steps agrees
with `borrowBook`; the split makes the interleaving of two concurrent
requests expressible. -/

/-- Control state of one in-flight borrow request. -/
inductive Phase where
  | start
  | ready (captured : Book) (d : Nat)
  | done (r : BorrowRes)
deriving Repr, DecidableEq

/-- One step of a borrow request: from `start`, the validations and the
`findById` read with the availability test on the fetched document; from
`ready`, the write of the decremented book and the inserted record.
`done` is absorbing. -/
def stepBorrow (now : Nat) (bookId : String) (q : Int) (d : Option Nat)
    (s : St) : Phase → Phase × St
  | .start =>
    if !isValidObjectId bookId then (.done .invalidId, s)
    else if q < 1 then (.done .invalidQuantity, s)
    else
      match d with
      | none => (.done .dueDateNotFuture, s)
      | some dd =>
        if dd ≤ now then (.done .dueDateNotFuture, s)
        else
          match findBook s bookId with
          | none => (.done .notFound, s)
          | some b =>
            if !b.available || b.copies < q then (.done .insufficientCopies, s)
            else (.ready b dd, s)
  | .ready b dd =>
    (.done .success,
     putBook { s with borrows := s.borrows ++ [⟨bookId, q, dd, now⟩] } bookId
       (applyBorrowToBook b q))
  | .done r => (.done r, s)

/-- Arguments of a borrow request. -/
structure BorrowArgs where
  now : Nat
  bookId : String
  quantity : Int
  dueDate : Option Nat
deriving Repr, DecidableEq

/-- Two concurrent borrow requests over a shared store. -/
structure Sys where
  st : St
  pa : Phase
  pb : Phase
deriving Repr, DecidableEq

/-- Let the scheduled request (`true` for the first) take one step. -/
def stepSys (a b : BorrowArgs) (sys : Sys) (who : Bool) : Sys :=
  if who then
    let r := stepBorrow a.now a.bookId a.quantity a.dueDate sys.st sys.pa
    { sys with pa := r.1, st := r.2 }
  else
    let r := stepBorrow b.now b.bookId b.quantity b.dueDate sys.st sys.pb
    { sys with pb := r.1, st := r.2 }

/-- Run a schedule of interleaved steps. -/
def runSched (a b : BorrowArgs) (sys : Sys) (sched : List Bool) : Sys :=
  sched.foldl (stepSys a b) sys

/-- Run a schedule and then let both requests run to completion (steps of
a finished request are no-ops, so the tail only finishes unfinished
work). -/
def completeRun (a b : BorrowArgs) (s0 : St) (sched : List Bool) : Sys :=
  runSched a b ⟨s0, .start, .start⟩ (sched ++ [true, true, false, false])

/-- Formalizes the claim that the availability test and the decrement form
one atomic step: every interleaving of two borrow requests then yields one
of the two serial outcomes (first request entirely before the second, or
conversely). -/
def borrowAtomic (a b : BorrowArgs) (s0 : St) : Prop :=
  ∀ sched : List Bool,
    completeRun a b s0 sched = completeRun a b s0 [] ∨
    completeRun a b s0 sched = completeRun a b s0 [false, false]

/-! Store-command traces.  Each controller issues a sequence of store
calls; reads return data without touching the store, writes apply a state
transformer.  The reporting controllers are defined through this
interpreter so that their read-only character is a provable property of
the trace rather than a typing artifact. -/

/-- One store call. -/
inductive Cmd where
  | read
  | write (f : St → St)

/-- Interpret one store call. -/
def applyCmd (s : St) : Cmd → St
  | .read => s
  | .write f => f s

/-- Interpret a trace of store calls. -/
def runCmds (s : St) (cs : List Cmd) : St := cs.foldl applyCmd s

/-- A trace is read-only when it contains no write. -/
def readOnly (cs : List Cmd) : Bool :=
  cs.all fun c => match c with | .read => true | .write _ => false

/-- The store calls of `getBorrowSummary` (one `Borrow.aggregate`). -/
def borrowSummaryCmds : List Cmd := [.read]

/-- The store calls of `getOverdueBooks` (one `Borrow.find` with
`populate`). -/
def overdueBooksCmds : List Cmd := [.read]

/-- The store calls of `getBorrowStatistics` (one `Borrow.aggregate` with
`$facet`). -/
def statisticsCmds : List Cmd := [.read]

/-- The store calls of the `GET /borrows/book/:bookId` controller: none
when the id is malformed, `Book.findById` alone when the book is missing,
and `Book.findById` followed by `Borrow.aggregate` otherwise. -/
def totalBorrowedEpCmds (s : St) (bookId : String) : List Cmd :=
  if !isValidObjectId bookId then []
  else
    match findBook s bookId with
    | none => [.read]
    | some _ => [.read, .read]

/-! Concrete demonstration data. -/

/-- A well-formed ObjectId hex string used by the concrete examples. -/
def demoId : String := "64a1b2c3d4e5f6a7b8c9d0e1"

/-- A well-formed ObjectId hex string that no demo store contains. -/
def missingId : String := "ffffffffffffffffffffffff"

/-- A demo catalog entry with three copies, as in the spec's example. -/
def demoBook : Book :=
  { title := "Dune", author := "Frank Herbert", genre := "SCIFI"
    isbn := "9780441013593", description := none, copies := 3
    available := true, createdAt := 100 }

/-- A demo store holding the demo book and no borrow records. -/
def demoSt : St := ⟨[(demoId, demoBook)], []⟩

/-- The borrow request of the spec's example: two copies of the demo book,
due in the future. -/
def demoArgs : BorrowArgs := ⟨1000, demoId, 2, some 2000⟩

/-- A store whose only book has a single remaining copy. -/
def demoStLow : St := ⟨[(demoId, { demoBook with copies := 1 })], []⟩

/-- A store with one book and two borrow records, one of which references
an id absent from the catalog. -/
def demoStBorrows : St :=
  ⟨[(demoId, demoBook)], [⟨demoId, 2, 2000, 150⟩, ⟨missingId, 1, 3000, 160⟩]⟩

/-! Aggregation pipelines, from `borrowSchema.statics` in
`src/app/models/borrow.model.ts` and `getBorrowStatistics` in
`src/app/controller/borrow.controller.ts`.  A `$group` stage is embedded
as a fold that upserts each record into an association list of per-key
accumulators (sum of `quantity`, document count, max `createdAt`); a
`$lookup` followed by `$unwind` on a unique key as a `filterMap` against
the catalog (dropping group keys absent from it); `$sort` as `mergeSort`;
`$limit` as `take`. -/

/-- Accumulator state of one `$group` bucket: `$sum` of quantity, `$sum`
of 1, `$max` of `createdAt`. -/
structure Agg where
  totalQty : Int
  cnt : Nat
  last : Nat
deriving Repr, DecidableEq

/-- Fold one record into a bucket's accumulators. -/
def bumpAgg (r : BorrowRec) (a : Agg) : Agg :=
  ⟨a.totalQty + r.quantity, a.cnt + 1, max a.last r.createdAt⟩

/-- Fold one record into the buckets of a `$group` keyed by `key`. -/
def upsertGroup {κ : Type} [DecidableEq κ] (key : BorrowRec → κ)
    (acc : List (κ × Agg)) (r : BorrowRec) : List (κ × Agg) :=
  if acc.any fun p => p.1 = key r then
    acc.map fun p => if p.1 = key r then (p.1, bumpAgg r p.2) else p
  else acc ++ [(key r, ⟨r.quantity, 1, r.createdAt⟩)]

/-- The `$group` stage over the borrow collection. -/
def groupBorrows {κ : Type} [DecidableEq κ] (key : BorrowRec → κ)
    (rs : List BorrowRec) : List (κ × Agg) :=
  rs.foldl (upsertGroup key) []

/-- Find the bucket of a key. -/
def findKey {κ : Type} [DecidableEq κ] (k : κ) : List (κ × Agg) → Option Agg
  | [] => none
  | p :: t => if p.1 = k then some p.2 else findKey k t

/-- The records of `rs` whose key is `k`. -/
def keyFilter {κ : Type} [DecidableEq κ] (key : BorrowRec → κ) (k : κ)
    (rs : List BorrowRec) : List BorrowRec :=
  rs.filter fun r => decide (key r = k)

/-- The aggregates the spec describes for one key: total quantity, record
count and most recent `createdAt` over the records with that key. -/
def specAgg {κ : Type} [DecidableEq κ] (key : BorrowRec → κ) (k : κ)
    (rs : List BorrowRec) : Agg :=
  ⟨((keyFilter key k rs).map BorrowRec.quantity).sum,
   (keyFilter key k rs).length,
   ((keyFilter key k rs).map BorrowRec.createdAt).foldl max 0⟩

/-- The `$sum` accumulator over a whole group (`_id: null`). -/
def sumQuantities (rs : List BorrowRec) : Int :=
  rs.foldl (fun a r => a + r.quantity) 0

/-- Embeds the static `getTotalBorrowedForBook`: `$match` on the book id,
`$group` with `_id: null` summing `quantity`, then `result[0]?.total || 0`
(an empty input produces no group document, read back as 0). -/
def getTotalBorrowedForBook (rs : List BorrowRec) (bookId : String) : Int :=
  let matched := rs.filter fun r => r.book == bookId
  match (if matched.isEmpty then none else some (sumQuantities matched)) with
  | none => 0
  | some t => t

/-- One row of the `getBorrowSummary` output after `$project`. -/
structure SummaryEntry where
  bookId : String
  title : String
  author : String
  isbn : String
  genre : String
  totalQuantityBorrowed : Int
  borrowCount : Nat
  lastBorrowDate : Nat
deriving Repr, DecidableEq

/-- The `$lookup` + `$unwind` + `$project` tail of `getBorrowSummary`:
join each bucket with its catalog entry, dropping buckets whose book id is
absent (the `$unwind` discards them). -/
def summaryJoin (s : St) (g : List (String × Agg)) : List SummaryEntry :=
  g.filterMap fun p =>
    match List.lookup p.1 s.books with
    | none => none
    | some b =>
      some ⟨p.1, b.title, b.author, b.isbn, b.genre, p.2.totalQty, p.2.cnt, p.2.last⟩

/-- The `$sort: { totalQuantityBorrowed: -1 }` comparison. -/
def summaryDescBy (a b : SummaryEntry) : Bool :=
  b.totalQuantityBorrowed ≤ a.totalQuantityBorrowed

/-- Embeds the static `getBorrowSummary` aggregation. -/
def getBorrowSummary (s : St) : List SummaryEntry :=
  List.mergeSort (summaryJoin s (groupBorrows BorrowRec.book s.borrows))
    summaryDescBy

/-- Embeds `Borrow.getOverdueBooks`: the records with `dueDate < now`,
each populated with its catalog entry when one exists. -/
def getOverdueBooks (s : St) (now : Nat) : List (BorrowRec × Option Book) :=
  (s.borrows.filter fun r => r.dueDate < now).map fun r =>
    (r, List.lookup r.book s.books)

/-- Civil calendar conversion (days since 1970-01-01 to year and month),
the UTC interpretation `$year` and `$month` apply to a stored date. -/
def civilFromDays (z0 : Nat) : Nat × Nat :=
  let z := z0 + 719468
  let era := z / 146097
  let doe := z % 146097
  let yoe := (doe - doe / 1460 + doe / 36524 - doe / 146096) / 365
  let y := yoe + era * 400
  let doy := doe - (365 * yoe + yoe / 4 - yoe / 100)
  let mp := (5 * doy + 2) / 153
  let m := if mp < 10 then mp + 3 else mp - 9
  let y2 := if m ≤ 2 then y + 1 else y
  (y2, m)

/-- The `$year` operator on a millisecond timestamp. -/
def yearOf (ms : Nat) : Nat := (civilFromDays (ms / 86400000)).1

/-- The `$month` operator on a millisecond timestamp. -/
def monthOf (ms : Nat) : Nat := (civilFromDays (ms / 86400000)).2

/-- The `$group` key of the by-month facet. -/
def monthKey (r : BorrowRec) : Nat × Nat := (yearOf r.createdAt, monthOf r.createdAt)

/-- One row of the by-month facet. -/
structure MonthGroup where
  year : Nat
  month : Nat
  count : Nat
  quantity : Int
deriving Repr, DecidableEq

/-- The `$sort: { year: -1, month: -1 }` comparison on month keys. -/
def monthKeyGE (a b : Nat × Nat) : Bool :=
  decide (b.1 < a.1) || (decide (a.1 = b.1) && decide (b.2 ≤ a.2))

/-- The same comparison on by-month rows. -/
def monthDesc (a b : MonthGroup) : Bool :=
  monthKeyGE (a.year, a.month) (b.year, b.month)

/-- Projection of one month bucket into an output row. -/
def monthRow (p : (Nat × Nat) × Agg) : MonthGroup :=
  ⟨p.1.1, p.1.2, p.2.cnt, p.2.totalQty⟩

/-- The month key of an output row. -/
def rowKey (g : MonthGroup) : Nat × Nat := (g.year, g.month)

/-- The `borrowsByMonth` facet: group by year and month of `createdAt`
with count and quantity sums, sort descending by year then month, limit
12. -/
def borrowsByMonth (rs : List BorrowRec) : List MonthGroup :=
  (List.mergeSort ((groupBorrows monthKey rs).map monthRow) monthDesc).take 12

/-- One row of the `mostBorrowedBooks` facet after `$project`. -/
structure TopBook where
  bookId : String
  title : String
  author : String
  totalBorrowed : Int
  borrowCount : Nat
deriving Repr, DecidableEq

/-- The `$sort: { totalBorrowed: -1 }` comparison. -/
def topDesc (a b : TopBook) : Bool := b.totalBorrowed ≤ a.totalBorrowed

/-- The `$lookup` + `$unwind` + `$project` tail of the top-books facet. -/
def topJoin (s : St) (g : List (String × Agg)) : List TopBook :=
  g.filterMap fun p =>
    match List.lookup p.1 s.books with
    | none => none
    | some b => some ⟨p.1, b.title, b.author, p.2.totalQty, p.2.cnt⟩

/-- The `mostBorrowedBooks` facet: group by book, join with the catalog
(`$unwind` drops ids absent from it), project title and author, sort
descending by total borrowed, limit 5. -/
def mostBorrowedBooks (s : St) : List TopBook :=
  (List.mergeSort (topJoin s (groupBorrows BorrowRec.book s.borrows))
    topDesc).take 5

/-- A `$count` stage: no output document on empty input. -/
def countStage {α : Type} (l : List α) : Option Nat :=
  if l.isEmpty then none else some l.length

/-- A whole-collection `$sum` group: no output document on empty input. -/
def totalQtyStage (rs : List BorrowRec) : Option Int :=
  if rs.isEmpty then none else some (sumQuantities rs)

/-- The composite report of `getBorrowStatistics`. -/
structure Statistics where
  totalBorrows : Nat
  totalQuantityBorrowed : Int
  overdueCount : Nat
  borrowsByMonth : List MonthGroup
  mostBorrowedBooks : List TopBook
deriving Repr, DecidableEq

/-- Embeds `getBorrowStatistics`: the `$facet` with the five pipelines and
the `?.count || 0` readbacks. -/
def getBorrowStatistics (s : St) (now : Nat) : Statistics :=
  { totalBorrows := (countStage s.borrows).getD 0
    totalQuantityBorrowed := (totalQtyStage s.borrows).getD 0
    overdueCount := (countStage (s.borrows.filter fun r => r.dueDate < now)).getD 0
    borrowsByMonth := borrowsByMonth s.borrows
    mostBorrowedBooks := mostBorrowedBooks s }

/-- The `GET /borrows/summary` endpoint. -/
def borrowSummaryOp (s : St) : List SummaryEntry × St :=
  (getBorrowSummary s, runCmds s borrowSummaryCmds)

/-- The `GET /borrows/overdue` endpoint. -/
def overdueBooksOp (s : St) (now : Nat) : List (BorrowRec × Option Book) × St :=
  (getOverdueBooks s now, runCmds s overdueBooksCmds)

/-- The `GET /borrows/statistics` endpoint. -/
def statisticsOp (s : St) (now : Nat) : Statistics × St :=
  (getBorrowStatistics s now, runCmds s statisticsCmds)

/-- Result alternatives of the `GET /borrows/book/:bookId` controller
`getTotalBorrowedForBook` in `src/app/controller/borrow.controller.ts`:
400 invalid id format, 404 book not found, or the 200 payload with the
book id, title, total borrowed and remaining copies. -/
inductive TotalRes where
  | invalidId
  | notFound
  | ok (bookId : String) (title : String) (totalBorrowed : Int)
      (remainingCopies : Int)
deriving Repr, DecidableEq

/-- Embeds the `GET /borrows/book/:bookId` controller: validate the id,
check the book exists (404 before any aggregation), then report the
aggregated total. -/
def getTotalBorrowedForBookEp (s : St) (bookId : String) : TotalRes × St :=
  (if !isValidObjectId bookId then TotalRes.invalidId
   else
     match findBook s bookId with
     | none => TotalRes.notFound
     | some b =>
       TotalRes.ok bookId b.title (getTotalBorrowedForBook s.borrows bookId)
         b.copies,
   runCmds s (totalBorrowedEpCmds s bookId))

/-! Helper lemmas about the save pipeline. -/

theorem preSaveBook_copies (b : Book) : (preSaveBook b).copies = b.copies := by
  unfold preSaveBook
  split
  · rfl
  · split <;> rfl

theorem preSaveBook_available (b : Book) :
    (preSaveBook b).available = decide (0 < b.copies) := by
  unfold preSaveBook
  by_cases h : b.copies ≤ 0
  · have : ¬ (0 < b.copies) := by omega
    simp [h, this]
  · have h1 : 0 < b.copies := by omega
    by_cases ha : b.available
    · simp [h, h1, ha]
    · simp [h, h1, ha]

theorem bookInv_preSaveBook (b : Book) (h : 0 ≤ b.copies) :
    bookInv (preSaveBook b) := by
  constructor
  · rw [preSaveBook_available, preSaveBook_copies]
  · rw [preSaveBook_copies]; exact h

theorem validBook_copies_nonneg (b : Book) (h : validBook b = true) :
    0 ≤ b.copies := by
  unfold validBook at h
  simp only [Bool.and_eq_true, decide_eq_true_eq] at h
  exact h.2

theorem applyBorrowToBook_copies (b : Book) (q : Int) :
    (applyBorrowToBook b q).copies = b.copies - q := by
  by_cases h : b.copies - q ≤ 0 <;>
    simp [applyBorrowToBook, h, preSaveBook_copies]

theorem applyBorrowToBook_available (b : Book) (q : Int) :
    (applyBorrowToBook b q).available = decide (0 < b.copies - q) := by
  by_cases h : b.copies - q ≤ 0 <;>
    simp [applyBorrowToBook, h, preSaveBook_available]

theorem bookInv_applyBorrowToBook (b : Book) (q : Int) (h : q ≤ b.copies) :
    bookInv (applyBorrowToBook b q) := by
  refine ⟨?_, ?_⟩
  · rw [applyBorrowToBook_available, applyBorrowToBook_copies]
  · rw [applyBorrowToBook_copies]; omega

theorem lookup_mem {l : List (String × Book)} {a : String} {b : Book}
    (h : List.lookup a l = some b) : (a, b) ∈ l := by
  induction l with
  | nil => simp [List.lookup] at h
  | cons p t ih =>
    obtain ⟨k, v⟩ := p
    rw [List.lookup] at h
    split at h
    next heq =>
      injection h with hv
      have hk : a = k := by simpa using heq
      rw [hk, hv]
      exact List.mem_cons_self _ _
    next heq =>
      exact List.mem_cons_of_mem _ (ih h)

theorem findBook_mem {s : St} {id : String} {b : Book}
    (h : findBook s id = some b) : (id, b) ∈ s.books :=
  lookup_mem h

theorem storeInv_putBook {s : St} {id : String} {b : Book}
    (hs : storeInv s) (hb : bookInv b) : storeInv (putBook s id b) := by
  intro p hp
  unfold putBook at hp
  simp only [List.mem_map] at hp
  obtain ⟨q, hq, hfq⟩ := hp
  by_cases h1 : q.1 = id
  · rw [if_pos h1] at hfq
    rw [← hfq]
    exact hb
  · rw [if_neg h1] at hfq
    rw [← hfq]
    exact hs q hq

/-! Invariant preservation, one mutating operation at a time. -/

theorem storeInv_createBook {s : St} (now : Nat) (newId : String)
    (body : BookBody) (hs : storeInv s) :
    storeInv (createBook s now newId body).2 := by
  unfold createBook
  cases hc : castNewBook now body with
  | none => exact hs
  | some b =>
    by_cases hv : validBook b
    · simp only [hv, Bool.not_true, Bool.false_eq_true, if_false]
      by_cases hd : s.books.any (fun p => p.2.isbn == b.isbn)
      · simp only [hd, if_true]; exact hs
      · simp only [hd, Bool.false_eq_true, if_false]
        intro p hp
        rcases List.mem_append.mp hp with h | h
        · exact hs p h
        · have : p = (newId, preSaveBook b) := by simpa using h
          rw [this]
          exact bookInv_preSaveBook b (validBook_copies_nonneg b hv)
    · simp only [Bool.not_eq_true] at hv
      simp only [hv, Bool.not_false, if_true]
      exact hs

theorem storeInv_updateBook {s : St} (id : String) (body : BookBody)
    (hs : storeInv s) : storeInv (updateBook s id body).2 := by
  unfold updateBook
  split
  · exact hs
  · cases hf : findBook s id with
    | none => exact hs
    | some b =>
      simp only []
      split
      · exact hs
      · split
        · exact hs
        · rename_i hv _
          simp only [Bool.not_eq_true', Bool.not_eq_false] at hv
          exact storeInv_putBook hs (bookInv_preSaveBook _ (validBook_copies_nonneg _ hv))

theorem storeInv_updateBookAvailability {s : St} (id : String)
    (hs : storeInv s) : storeInv (updateBookAvailability s id).2 := by
  unfold updateBookAvailability
  split
  · exact hs
  · cases hf : findBook s id with
    | none => exact hs
    | some b =>
      have hb := hs _ (findBook_mem hf)
      exact storeInv_putBook hs (bookInv_preSaveBook _ hb.2)

theorem storeInv_borrowBook {s : St} (now : Nat) (bookId : String)
    (q : Int) (d : Option Nat) (hs : storeInv s) :
    storeInv (borrowBook s now bookId q d).2 := by
  unfold borrowBook
  split
  · exact hs
  · split
    · exact hs
    · cases d with
      | none => exact hs
      | some dd =>
        simp only []
        split
        · exact hs
        · cases hf : findBook s bookId with
          | none => exact hs
          | some b =>
            simp only []
            split
            · exact hs
            · rename_i hguard
              have hq : q ≤ b.copies := by
                simp only [Bool.or_eq_true, Bool.not_eq_true', decide_eq_true_eq] at hguard
                push_neg at hguard
                omega
              have hput : storeInv { s with borrows := s.borrows ++ [⟨bookId, q, dd, now⟩] } := by
                intro p hp
                exact hs p hp
              exact storeInv_putBook hput (bookInv_applyBorrowToBook b q hq)

theorem storeInv_deleteBook {s : St} (id : String) (hs : storeInv s) :
    storeInv (deleteBook s id).2 := by
  unfold deleteBook
  split
  · exact hs
  · cases hf : findBook s id with
    | none => exact hs
    | some b =>
      intro p hp
      exact hs p (List.mem_of_mem_filter hp)

theorem storeInv_applyOp {s : St} (op : Op) (hs : storeInv s) :
    storeInv (applyOp s op) := by
  cases op with
  | create now newId body => exact storeInv_createBook now newId body hs
  | update id body => exact storeInv_updateBook id body hs
  | updAvail id => exact storeInv_updateBookAvailability id hs
  | borrow now bookId q d => exact storeInv_borrowBook now bookId q d hs
  | delete id => exact storeInv_deleteBook id hs

theorem storeInv_applyOps {s : St} (ops : List Op) (hs : storeInv s) :
    storeInv (applyOps s ops) := by
  induction ops generalizing s with
  | nil => exact hs
  | cons op t ih => exact ih (storeInv_applyOp op hs)

theorem storeInv_empty : storeInv St.empty := by
  intro p hp
  simp [St.empty] at hp

theorem lookup_put {l : List (String × Book)} {id : String} {b0 : Book}
    (b : Book) (h : List.lookup id l = some b0) :
    List.lookup id (l.map fun p => if p.1 = id then (p.1, b) else p) = some b := by
  induction l with
  | nil => simp [List.lookup] at h
  | cons p t ih =>
    obtain ⟨k, v⟩ := p
    rw [List.lookup] at h
    split at h
    next heq =>
      have hk : id = k := by simpa using heq
      subst hk
      have hc : ((id, v) : String × Book).1 = id := rfl
      rw [List.map_cons, if_pos hc, List.lookup]
      simp
    next heq =>
      have hk : ¬ (k = id) := by
        intro hh
        rw [hh] at heq
        simp at heq
      have hkb : (id == k) = false := by
        rw [beq_eq_false_iff_ne]
        exact fun hh => hk hh.symm
      simp only [List.map_cons, if_neg hk]
      rw [List.lookup, hkb]
      exact ih h

theorem lookup_filter_self (l : List (String × Book)) (id : String) :
    List.lookup id (l.filter fun p => decide (p.1 ≠ id)) = none := by
  induction l with
  | nil => rfl
  | cons p t ih =>
    obtain ⟨k, v⟩ := p
    by_cases h : k = id
    · rw [show List.filter (fun p : String × Book => decide (p.1 ≠ id)) ((k, v) :: t)
          = List.filter (fun p => decide (p.1 ≠ id)) t from
        List.filter_cons_of_neg (by simp [h])]
      exact ih
    · rw [show List.filter (fun p : String × Book => decide (p.1 ≠ id)) ((k, v) :: t)
          = (k, v) :: List.filter (fun p => decide (p.1 ≠ id)) t from
        List.filter_cons_of_pos (by simp [h])]
      have hkb : (id == k) = false := by
        rw [beq_eq_false_iff_ne]
        exact fun hh => h hh.symm
      rw [List.lookup, hkb]
      exact ih

theorem borrowBook_success {s : St} {now : Nat} {bookId : String} {q : Int}
    {d : Nat} {b : Book}
    (hid : isValidObjectId bookId = true) (hq : 1 ≤ q) (hd : now < d)
    (hb : findBook s bookId = some b) (hav : b.available = true)
    (hc : q ≤ b.copies) :
    borrowBook s now bookId q (some d) =
      (BorrowRes.success,
       putBook { s with borrows := s.borrows ++ [⟨bookId, q, d, now⟩] } bookId
         (applyBorrowToBook b q)) := by
  have h1 : ¬ (q < 1) := by omega
  have h2 : ¬ (d ≤ now) := by omega
  have h3 : ¬ (b.copies < q) := by omega
  simp [borrowBook, hid, h1, h2, hb, hav, h3]

/-! Characterization of the embedded `$group` stage. -/

section GroupLemmas

variable {κ : Type} [DecidableEq κ]

theorem findKey_isSome (k : κ) (acc : List (κ × Agg)) :
    (findKey k acc).isSome = acc.any fun p => p.1 = k := by
  induction acc with
  | nil => rfl
  | cons p t ih =>
    by_cases h : p.1 = k
    · simp [findKey, h]
    · simp [findKey, h, ih]

theorem findKey_append (k : κ) (l1 l2 : List (κ × Agg)) :
    findKey k (l1 ++ l2) =
      match findKey k l1 with
      | some a => some a
      | none => findKey k l2 := by
  induction l1 with
  | nil => rfl
  | cons p t ih =>
    by_cases h : p.1 = k
    · simp [findKey, h]
    · simp [findKey, h, ih]

theorem findKey_map_bump (k : κ) (acc : List (κ × Agg)) (r : BorrowRec) :
    findKey k (acc.map fun p => if p.1 = k then (p.1, bumpAgg r p.2) else p) =
      (findKey k acc).map (bumpAgg r) := by
  induction acc with
  | nil => rfl
  | cons p t ih =>
    by_cases h : p.1 = k
    · simp [findKey, h]
    · simp [findKey, h, ih]

theorem findKey_map_bump_other (k k2 : κ) (acc : List (κ × Agg))
    (r : BorrowRec) (h : k2 ≠ k) :
    findKey k2 (acc.map fun p => if p.1 = k then (p.1, bumpAgg r p.2) else p) =
      findKey k2 acc := by
  have hk : ¬ (k = k2) := fun hh => h hh.symm
  induction acc with
  | nil => rfl
  | cons p t ih =>
    by_cases hp : p.1 = k
    · have hp2 : ¬ (p.1 = k2) := by rw [hp]; exact hk
      simp [findKey, hp, hp2, hk, ih]
    · by_cases hp2 : p.1 = k2
      · simp [findKey, hp, hp2, h, ih]
      · simp [findKey, hp, hp2, ih]

theorem findKey_some_mem {k : κ} {l : List (κ × Agg)} {a : Agg}
    (h : findKey k l = some a) : (k, a) ∈ l := by
  induction l with
  | nil => simp [findKey] at h
  | cons p t ih =>
    rw [findKey] at h
    split at h
    next hp =>
      cases h
      have : p = (k, p.2) := by rw [← hp]
      rw [← this]
      exact List.mem_cons_self _ _
    next hp =>
      exact List.mem_cons_of_mem _ (ih h)

theorem mem_findKey_of_nodup {k : κ} {l : List (κ × Agg)} {a : Agg}
    (hn : (l.map Prod.fst).Nodup) (h : (k, a) ∈ l) : findKey k l = some a := by
  induction l with
  | nil => simp at h
  | cons p t ih =>
    rw [List.map_cons, List.nodup_cons] at hn
    rcases List.mem_cons.mp h with h | h
    · rw [← h, findKey, if_pos rfl]
    · have hk : ¬ (p.1 = k) := by
        intro hp
        exact hn.1 (hp ▸ (List.mem_map.mpr ⟨(k, a), h, rfl⟩))
      rw [findKey, if_neg hk]
      exact ih hn.2 h

theorem findKey_upsert_self (key : BorrowRec → κ) (acc : List (κ × Agg))
    (r : BorrowRec) :
    findKey (key r) (upsertGroup key acc r) =
      match findKey (key r) acc with
      | some a => some (bumpAgg r a)
      | none => some ⟨r.quantity, 1, r.createdAt⟩ := by
  unfold upsertGroup
  by_cases hany : (acc.any fun p => p.1 = key r) = true
  · rw [if_pos hany, findKey_map_bump]
    have hs : (findKey (key r) acc).isSome = true := by
      rw [findKey_isSome]; exact hany
    cases hf : findKey (key r) acc with
    | none => rw [hf] at hs; simp at hs
    | some a => simp
  · rw [if_neg hany, findKey_append]
    have hn : findKey (key r) acc = none := by
      cases hf : findKey (key r) acc with
      | none => rfl
      | some a =>
        exfalso
        apply hany
        have hs : (findKey (key r) acc).isSome = true := by rw [hf]; rfl
        rw [findKey_isSome] at hs
        exact hs
    rw [hn]
    simp [findKey]

theorem findKey_upsert_other (key : BorrowRec → κ) (acc : List (κ × Agg))
    (r : BorrowRec) (k : κ) (h : k ≠ key r) :
    findKey k (upsertGroup key acc r) = findKey k acc := by
  unfold upsertGroup
  by_cases hany : (acc.any fun p => p.1 = key r) = true
  · rw [if_pos hany, findKey_map_bump_other _ _ _ _ h]
  · rw [if_neg hany, findKey_append]
    have hone : findKey k [(key r, (⟨r.quantity, 1, r.createdAt⟩ : Agg))] = none := by
      rw [findKey, if_neg (fun hh => h hh.symm)]
      rfl
    rw [hone]
    cases findKey k acc <;> rfl

theorem upsertGroup_keys (key : BorrowRec → κ) (acc : List (κ × Agg))
    (r : BorrowRec) :
    (upsertGroup key acc r).map Prod.fst =
      if (acc.any fun p => p.1 = key r) = true then acc.map Prod.fst
      else acc.map Prod.fst ++ [key r] := by
  unfold upsertGroup
  by_cases hany : (acc.any fun p => p.1 = key r) = true
  · rw [if_pos hany, if_pos hany, List.map_map]
    congr 1
    funext p
    by_cases h : p.1 = key r <;> simp [h]
  · rw [if_neg hany, if_neg hany]
    simp

theorem groupBorrows_append (key : BorrowRec → κ) (rs : List BorrowRec)
    (r : BorrowRec) :
    groupBorrows key (rs ++ [r]) = upsertGroup key (groupBorrows key rs) r := by
  simp [groupBorrows, List.foldl_append]

theorem groupBorrows_keys_nodup (key : BorrowRec → κ) (rs : List BorrowRec) :
    ((groupBorrows key rs).map Prod.fst).Nodup := by
  induction rs using List.reverseRecOn with
  | nil => simp [groupBorrows]
  | append_singleton rs r ih =>
    rw [groupBorrows_append, upsertGroup_keys]
    by_cases hany : ((groupBorrows key rs).any fun p => p.1 = key r) = true
    · rw [if_pos hany]; exact ih
    · rw [if_neg hany]
      rw [List.nodup_append]
      refine ⟨ih, List.nodup_singleton _, ?_⟩
      intro x hx hx2
      have : x = key r := by simpa using hx2
      rw [this] at hx
      obtain ⟨p, hp, hpk⟩ := List.mem_map.mp hx
      exact hany (List.any_eq_true.mpr ⟨p, hp, by simp [hpk]⟩)

theorem keyFilter_append_self (key : BorrowRec → κ) (rs : List BorrowRec)
    (r : BorrowRec) :
    keyFilter key (key r) (rs ++ [r]) = keyFilter key (key r) rs ++ [r] := by
  simp [keyFilter]

theorem keyFilter_append_other (key : BorrowRec → κ) (rs : List BorrowRec)
    (r : BorrowRec) (k : κ) (h : k ≠ key r) :
    keyFilter key k (rs ++ [r]) = keyFilter key k rs := by
  have hne : ¬ (key r = k) := fun hh => h hh.symm
  simp [keyFilter, hne]

theorem groupBorrows_findKey (key : BorrowRec → κ) (rs : List BorrowRec)
    (k : κ) :
    findKey k (groupBorrows key rs) =
      if keyFilter key k rs = [] then none else some (specAgg key k rs) := by
  induction rs using List.reverseRecOn with
  | nil => simp [groupBorrows, keyFilter, findKey]
  | append_singleton rs r ih =>
    rw [groupBorrows_append]
    by_cases hk : k = key r
    · subst hk
      rw [findKey_upsert_self, ih]
      by_cases he : keyFilter key (key r) rs = []
      · rw [if_pos he]
        have hfil : keyFilter key (key r) (rs ++ [r]) = [r] := by
          rw [keyFilter_append_self, he]
          rfl
        have hne : keyFilter key (key r) (rs ++ [r]) ≠ [] := by
          rw [hfil]; simp
        rw [if_neg hne]
        show some (⟨r.quantity, 1, r.createdAt⟩ : Agg)
          = some (specAgg key (key r) (rs ++ [r]))
        simp [specAgg, hfil]
      · rw [if_neg he]
        have hne2 : keyFilter key (key r) (rs ++ [r]) ≠ [] := by
          rw [keyFilter_append_self]; simp
        rw [if_neg hne2]
        show some (bumpAgg r (specAgg key (key r) rs))
          = some (specAgg key (key r) (rs ++ [r]))
        have hagg : specAgg key (key r) (rs ++ [r])
            = bumpAgg r (specAgg key (key r) rs) := by
          simp [specAgg, bumpAgg, keyFilter_append_self, List.foldl_append]
        rw [hagg]
    · rw [findKey_upsert_other _ _ _ _ hk, ih]
      simp only [specAgg, keyFilter_append_other _ _ _ _ hk]

theorem groupBorrows_mem_keys (key : BorrowRec → κ) (rs : List BorrowRec)
    (k : κ) :
    k ∈ (groupBorrows key rs).map Prod.fst ↔ keyFilter key k rs ≠ [] := by
  have h1 := findKey_isSome k (groupBorrows key rs)
  have h2 := groupBorrows_findKey key rs k
  constructor
  · intro h
    have : ((groupBorrows key rs).any fun p => p.1 = k) = true := by
      obtain ⟨p, hp, hpk⟩ := List.mem_map.mp h
      exact List.any_eq_true.mpr ⟨p, hp, by simp [hpk]⟩
    rw [this] at h1
    intro he
    rw [he] at h2
    simp at h2
    rw [h2] at h1
    simp at h1
  · intro h
    rw [if_neg h] at h2
    obtain ⟨p, hp, hpk⟩ : ∃ p ∈ groupBorrows key rs, p.1 = k := by
      have := findKey_some_mem h2
      exact ⟨(k, specAgg key k rs), this, rfl⟩
    exact List.mem_map.mpr ⟨p, hp, hpk⟩

theorem groupBorrows_mem_val (key : BorrowRec → κ) (rs : List BorrowRec)
    {k : κ} {a : Agg} (h : (k, a) ∈ groupBorrows key rs) :
    a = specAgg key k rs ∧ keyFilter key k rs ≠ [] := by
  have hf := mem_findKey_of_nodup (groupBorrows_keys_nodup key rs) h
  have h2 := groupBorrows_findKey key rs k
  by_cases he : keyFilter key k rs = []
  · rw [if_pos he] at h2
    rw [h2] at hf
    cases hf
  · rw [if_neg he] at h2
    rw [h2] at hf
    cases hf
    exact ⟨rfl, he⟩

end GroupLemmas

theorem sumQuantities_eq (rs : List BorrowRec) :
    sumQuantities rs = (rs.map BorrowRec.quantity).sum := by
  have h : ∀ a : Int, rs.foldl (fun a r => a + r.quantity) a
      = a + (rs.map BorrowRec.quantity).sum := by
    induction rs with
    | nil => intro a; simp
    | cons r t ih =>
      intro a
      simp only [List.foldl_cons, List.map_cons, List.sum_cons]
      rw [ih]
      ring
  simpa [sumQuantities] using h 0

theorem runCmds_readOnly {cs : List Cmd} (h : readOnly cs = true) (s : St) :
    runCmds s cs = s := by
  induction cs generalizing s with
  | nil => rfl
  | cons c t ih =>
    simp only [readOnly, List.all_cons, Bool.and_eq_true] at h
    cases c with
    | read => exact ih h.2 s
    | write f => simp at h

theorem summaryJoin_keys_sublist (s : St) (g : List (String × Agg)) :
    ((summaryJoin s g).map SummaryEntry.bookId).Sublist (g.map Prod.fst) := by
  induction g with
  | nil => simp [summaryJoin]
  | cons p t ih =>
    unfold summaryJoin
    rw [List.filterMap_cons]
    cases hl : List.lookup p.1 s.books with
    | none => exact List.Sublist.cons _ ih
    | some b => exact List.Sublist.cons₂ _ ih

theorem summaryDescBy_trans (a b c : SummaryEntry)
    (hab : summaryDescBy a b) (hbc : summaryDescBy b c) :
    summaryDescBy a c = true := by
  simp only [summaryDescBy, decide_eq_true_eq] at *
  omega

theorem summaryDescBy_total (a b : SummaryEntry) :
    (summaryDescBy a b || summaryDescBy b a) = true := by
  simp only [summaryDescBy, Bool.or_eq_true, decide_eq_true_eq]
  omega

theorem monthDesc_trans (a b c : MonthGroup)
    (hab : monthDesc a b) (hbc : monthDesc b c) : monthDesc a c = true := by
  simp only [monthDesc, monthKeyGE, Bool.or_eq_true, Bool.and_eq_true,
    decide_eq_true_eq] at *
  omega

theorem monthDesc_total (a b : MonthGroup) :
    (monthDesc a b || monthDesc b a) = true := by
  simp only [monthDesc, monthKeyGE, Bool.or_eq_true, Bool.and_eq_true,
    decide_eq_true_eq]
  omega

theorem topDesc_trans (a b c : TopBook)
    (hab : topDesc a b) (hbc : topDesc b c) : topDesc a c = true := by
  simp only [topDesc, decide_eq_true_eq] at *
  omega

theorem topDesc_total (a b : TopBook) :
    (topDesc a b || topDesc b a) = true := by
  simp only [topDesc, Bool.or_eq_true, decide_eq_true_eq]
  omega

theorem topJoin_keys_sublist (s : St) (g : List (String × Agg)) :
    ((topJoin s g).map TopBook.bookId).Sublist (g.map Prod.fst) := by
  induction g with
  | nil => simp [topJoin]
  | cons p t ih =>
    unfold topJoin
    rw [List.filterMap_cons]
    cases hl : List.lookup p.1 s.books with
    | none => exact List.Sublist.cons _ ih
    | some b => exact List.Sublist.cons₂ _ ih

theorem pairwise_take_drop {α : Type} {R : α → α → Prop} {l : List α}
    (h : List.Pairwise R l) (n : Nat) :
    ∀ a ∈ l.take n, ∀ b ∈ l.drop n, R a b := by
  have hl : l.take n ++ l.drop n = l := List.take_append_drop n l
  rw [← hl] at h
  exact (List.pairwise_append.mp h).2.2

theorem mem_take_or_drop {α : Type} {x : α} {l : List α} (n : Nat)
    (h : x ∈ l) : x ∈ l.take n ∨ x ∈ l.drop n := by
  have hl : l.take n ++ l.drop n = l := List.take_append_drop n l
  rw [← hl] at h
  exact List.mem_append.mp h

theorem length_of_mem_drop {α : Type} {x : α} {l : List α} {n : Nat}
    (h : x ∈ l.drop n) : n < l.length := by
  by_contra hc
  rw [List.drop_eq_nil_iff.mpr (by omega)] at h
  simp at h

/-! Claim theorems. -/

/-- C1 (amended): when the book exists, is available and has at least
`quantity` copies (and the request validations pass), a borrow decrements
that book's copies by exactly `quantity` and appends a borrow record with
the supplied quantity and due date — as a single request's sequential
read-then-write, not as one atomic store step. -/
theorem C1_sequential_borrow (s : St) (now : Nat) (bookId : String)
    (q : Int) (d : Nat) (b : Book)
    (hid : isValidObjectId bookId = true) (hq : 1 ≤ q) (hd : now < d)
    (hb : findBook s bookId = some b) (hav : b.available = true)
    (hc : q ≤ b.copies) :
    (borrowBook s now bookId q (some d)).1 = BorrowRes.success ∧
    (borrowBook s now bookId q (some d)).2.borrows
      = s.borrows ++ [⟨bookId, q, d, now⟩] ∧
    ∃ b2, findBook (borrowBook s now bookId q (some d)).2 bookId = some b2 ∧
      b2.copies = b.copies - q ∧ b2.available = decide (0 < b.copies - q) := by
  rw [borrowBook_success hid hq hd hb hav hc]
  exact ⟨rfl, rfl,
    applyBorrowToBook b q, lookup_put _ hb,
    applyBorrowToBook_copies b q, applyBorrowToBook_available b q⟩

/-- C1 witness: the spec's example run sequentially — three copies, a
successful borrow of two leaves one copy and the book available, and a
subsequent borrow of two fails leaving one copy. -/
theorem C1_sequential_borrow_witness :
    (borrowBook demoSt 1000 demoId 2 (some 2000)).1 = BorrowRes.success ∧
    (findBook (borrowBook demoSt 1000 demoId 2 (some 2000)).2 demoId).map
      Book.copies = some 1 ∧
    (findBook (borrowBook demoSt 1000 demoId 2 (some 2000)).2 demoId).map
      Book.available = some true ∧
    (borrowBook (borrowBook demoSt 1000 demoId 2 (some 2000)).2 1100 demoId 2
      (some 2000)).1 = BorrowRes.insufficientCopies ∧
    (findBook (borrowBook (borrowBook demoSt 1000 demoId 2 (some 2000)).2 1100
      demoId 2 (some 2000)).2 demoId).map Book.copies = some 1 := by
  have h := C1_sequential_borrow demoSt 1000 demoId 2 2000 demoBook
    (by decide) (by decide) (by decide) (by decide) (by decide) (by decide)
  exact ⟨h.1, by decide, by decide, by decide, by decide⟩

/-- C1 counterexample: the availability test and the decrement are not one
atomic step.  With the book at three copies and two interleaved borrow
requests of two copies each (both reads before both writes), both requests
succeed and four copies are recorded borrowed — an outcome equal to
neither serial order, where the second request fails. -/
theorem C1_counterexample :
    ¬ borrowAtomic demoArgs demoArgs demoSt ∧
    demoBook.copies = 3 ∧
    (completeRun demoArgs demoArgs demoSt [true, false]).pa
      = Phase.done BorrowRes.success ∧
    (completeRun demoArgs demoArgs demoSt [true, false]).pb
      = Phase.done BorrowRes.success ∧
    ((completeRun demoArgs demoArgs demoSt [true, false]).st.borrows.map
      BorrowRec.quantity).sum = 4 := by
  refine ⟨?_, by decide, by decide, by decide, by decide⟩
  intro h
  have hh := h [true, false]
  revert hh
  decide

/-- C2: the derived-availability invariant `available == (copies > 0)`
together with `copies ≥ 0` is preserved by every mutating operation
(create, update, availability update, borrow, delete), and holds in every
store reachable from the empty store by any operation sequence. -/
theorem C2_invariant_after_mutations :
    (∀ (s : St) (op : Op), storeInv s → storeInv (applyOp s op)) ∧
    ∀ ops : List Op, storeInv (applyOps St.empty ops) :=
  ⟨fun _ op hs => storeInv_applyOp op hs,
   fun ops => storeInv_applyOps ops storeInv_empty⟩

/-- C2 witness: the invariant holds after a concrete successful borrow
against the demo store. -/
theorem C2_invariant_witness :
    storeInv (applyOp demoSt (Op.borrow 1000 demoId 2 (some 2000))) :=
  C2_invariant_after_mutations.1 demoSt (Op.borrow 1000 demoId 2 (some 2000))
    (by decide)

/-- C3 counterexample: a borrow of a well-formed id that refers to no book
fails with the NotFound error (HTTP 404 "Book not found"), not with the
InsufficientCopies error, so the nonexistent-book cause is distinguishable
to the caller. -/
theorem C3_counterexample :
    (borrowBook demoSt 1000 missingId 1 (some 2000)).1 = BorrowRes.notFound ∧
    (borrowBook demoSt 1000 missingId 1 (some 2000)).1
      ≠ BorrowRes.insufficientCopies := by decide

/-- C3 (amended): with the request validations passing, a nonexistent book
fails with NotFound, while an unavailable book and insufficient stock both
fail with the same single InsufficientCopies error and are therefore
indistinguishable from each other (but not from nonexistence). -/
theorem C3_error_discrimination (s : St) (now : Nat) (bookId : String)
    (q : Int) (d : Nat)
    (hid : isValidObjectId bookId = true) (hq : 1 ≤ q) (hd : now < d) :
    (findBook s bookId = none →
      borrowBook s now bookId q (some d) = (BorrowRes.notFound, s)) ∧
    ∀ b, findBook s bookId = some b → (b.available = false ∨ b.copies < q) →
      borrowBook s now bookId q (some d) = (BorrowRes.insufficientCopies, s) := by
  have h1 : ¬ (q < 1) := by omega
  have h2 : ¬ (d ≤ now) := by omega
  constructor
  · intro hn
    simp [borrowBook, hid, h1, h2, hn]
  · intro b hb hbad
    have hg : (!b.available || decide (b.copies < q)) = true := by
      rcases hbad with h | h
      · simp [h]
      · simp [h]
    simp [borrowBook, hid, h1, h2, hb, hg]

/-- C3 witness: concrete NotFound for a missing id and InsufficientCopies
for a one-copy book asked for two copies. -/
theorem C3_error_discrimination_witness :
    borrowBook demoSt 1000 missingId 2 (some 2000)
      = (BorrowRes.notFound, demoSt) ∧
    borrowBook demoStLow 1000 demoId 2 (some 2000)
      = (BorrowRes.insufficientCopies, demoStLow) :=
  ⟨(C3_error_discrimination demoSt 1000 missingId 2 2000
      (by decide) (by decide) (by decide)).1 (by decide),
   (C3_error_discrimination demoStLow 1000 demoId 2 2000
      (by decide) (by decide) (by decide)).2 { demoBook with copies := 1 }
      (by decide) (Or.inr (by decide))⟩

/-- C4: a borrow whose due date is absent or not strictly after the
current time fails with a validation error and leaves the store — books
and borrow records alike — unchanged. -/
theorem C4_dueDate_not_future (s : St) (now : Nat) (bookId : String)
    (q : Int) (d : Option Nat) (hd : ∀ dd, d = some dd → dd ≤ now) :
    (borrowBook s now bookId q d).1.isValidationError = true ∧
    (borrowBook s now bookId q d).2 = s := by
  by_cases h1 : isValidObjectId bookId
  · by_cases h2 : q < 1
    · simp [borrowBook, h1, h2, BorrowRes.isValidationError]
    · cases d with
      | none => simp [borrowBook, h1, h2, BorrowRes.isValidationError]
      | some dd =>
        have h3 : dd ≤ now := hd dd rfl
        simp [borrowBook, h1, h2, h3, BorrowRes.isValidationError]
  · simp [borrowBook, h1, BorrowRes.isValidationError]

/-- C4 witness: a due date in the past against the demo store. -/
theorem C4_dueDate_witness :
    (borrowBook demoSt 1000 demoId 2 (some 500)).1.isValidationError = true ∧
    (borrowBook demoSt 1000 demoId 2 (some 500)).2 = demoSt :=
  C4_dueDate_not_future demoSt 1000 demoId 2 (some 500)
    (by intro dd h; injection h with h2; omega)

/-- C5: deleting an existing book removes it and every borrow record that
references it: afterwards the lookup fails, the surviving borrow records
are exactly those referencing other books, and none references the
deleted id. -/
theorem C5_delete_cascades (s : St) (id : String) (b : Book)
    (hid : isValidObjectId id = true) (hb : findBook s id = some b) :
    (deleteBook s id).1 = SimpleRes.ok ∧
    findBook (deleteBook s id).2 id = none ∧
    (deleteBook s id).2.borrows = s.borrows.filter (fun r => r.book ≠ id) ∧
    ∀ r ∈ (deleteBook s id).2.borrows, r.book ≠ id := by
  have he : deleteBook s id =
      (SimpleRes.ok, { books := s.books.filter fun p => p.1 ≠ id
                       borrows := s.borrows.filter fun r => r.book ≠ id }) := by
    simp [deleteBook, hid, hb]
  rw [he]
  refine ⟨rfl, lookup_filter_self s.books id, rfl, ?_⟩
  intro r hr
  have := List.of_mem_filter hr
  simpa using this

/-- C5 witness: deleting the demo book removes its borrow record and keeps
the unrelated one. -/
theorem C5_delete_witness :
    (deleteBook demoStBorrows demoId).1 = SimpleRes.ok ∧
    findBook (deleteBook demoStBorrows demoId).2 demoId = none ∧
    (deleteBook demoStBorrows demoId).2.borrows
      = [⟨missingId, 1, 3000, 160⟩] := by
  have h := C5_delete_cascades demoStBorrows demoId demoBook
    (by decide) (by decide)
  exact ⟨h.1, h.2.1, by decide⟩

/-- C6: the per-book total equals the sum of `quantity` over the borrow
records referencing the id, and equals 0 when no such record exists. -/
theorem C6_totalBorrowedForBook (rs : List BorrowRec) (bookId : String) :
    getTotalBorrowedForBook rs bookId
      = ((rs.filter fun r => r.book == bookId).map BorrowRec.quantity).sum ∧
    ((rs.filter fun r => r.book == bookId) = [] →
      getTotalBorrowedForBook rs bookId = 0) := by
  have hmain : getTotalBorrowedForBook rs bookId
      = ((rs.filter fun r => r.book == bookId).map BorrowRec.quantity).sum := by
    unfold getTotalBorrowedForBook
    by_cases he : (rs.filter fun r => r.book == bookId).isEmpty
    · have hnil : (rs.filter fun r => r.book == bookId) = [] :=
        List.isEmpty_iff.mp he
      rw [hnil] at *
      simp
    · have : ¬ ((rs.filter fun r => r.book == bookId).isEmpty = true) := he
      simp only [this, Bool.false_eq_true, if_false]
      rw [sumQuantities_eq]
  refine ⟨hmain, fun h => ?_⟩
  rw [hmain, h]
  rfl

/-- C6 witness: the demo ledger sums to 2 for the demo book, and an
unreferenced id totals 0. -/
theorem C6_totalBorrowedForBook_witness :
    getTotalBorrowedForBook demoStBorrows.borrows demoId = 2 ∧
    getTotalBorrowedForBook ([] : List BorrowRec) demoId = 0 := by
  refine ⟨by decide, ?_⟩
  exact (C6_totalBorrowedForBook [] demoId).2 rfl

/-- C7: the borrow summary is sorted descending by total quantity
borrowed, lists each book at most once, every row joins a catalog entry
with that book's aggregates over its borrow records (total quantity,
event count, latest borrow timestamp), and every book that has borrow
records and is in the catalog appears. -/
theorem C7_borrowSummary (s : St) :
    List.Pairwise (fun a b => summaryDescBy a b = true) (getBorrowSummary s) ∧
    ((getBorrowSummary s).map SummaryEntry.bookId).Nodup ∧
    (∀ e ∈ getBorrowSummary s, ∃ b,
      List.lookup e.bookId s.books = some b ∧
      e.title = b.title ∧ e.author = b.author ∧ e.isbn = b.isbn ∧
      e.genre = b.genre ∧
      e.totalQuantityBorrowed
        = ((keyFilter BorrowRec.book e.bookId s.borrows).map
            BorrowRec.quantity).sum ∧
      e.borrowCount = (keyFilter BorrowRec.book e.bookId s.borrows).length ∧
      e.lastBorrowDate
        = ((keyFilter BorrowRec.book e.bookId s.borrows).map
            BorrowRec.createdAt).foldl max 0 ∧
      keyFilter BorrowRec.book e.bookId s.borrows ≠ []) ∧
    ∀ k b, List.lookup k s.books = some b →
      keyFilter BorrowRec.book k s.borrows ≠ [] →
      ∃ e ∈ getBorrowSummary s, e.bookId = k := by
  refine ⟨?_, ?_, ?_, ?_⟩
  · exact List.sorted_mergeSort summaryDescBy_trans summaryDescBy_total _
  · have hperm : ((getBorrowSummary s).map SummaryEntry.bookId).Perm
        ((summaryJoin s (groupBorrows BorrowRec.book s.borrows)).map
          SummaryEntry.bookId) :=
      (List.mergeSort_perm _ _).map _
    rw [hperm.nodup_iff]
    exact ((summaryJoin_keys_sublist s _).nodup
      (groupBorrows_keys_nodup BorrowRec.book s.borrows))
  · intro e he
    rw [getBorrowSummary, List.mem_mergeSort] at he
    rw [summaryJoin] at he
    obtain ⟨p, hp, hfp⟩ := List.mem_filterMap.mp he
    cases hl : List.lookup p.1 s.books with
    | none => rw [hl] at hfp; cases hfp
    | some b =>
      rw [hl] at hfp
      cases hfp
      obtain ⟨hval, hne⟩ := groupBorrows_mem_val BorrowRec.book s.borrows hp
      rw [hval]
      exact ⟨b, hl, rfl, rfl, rfl, rfl, rfl, rfl, rfl, hne⟩
  · intro k b hb hne
    have hfk := groupBorrows_findKey BorrowRec.book s.borrows k
    rw [if_neg hne] at hfk
    have hmem := findKey_some_mem hfk
    refine ⟨⟨k, b.title, b.author, b.isbn, b.genre,
      (specAgg BorrowRec.book k s.borrows).totalQty,
      (specAgg BorrowRec.book k s.borrows).cnt,
      (specAgg BorrowRec.book k s.borrows).last⟩, ?_, rfl⟩
    rw [getBorrowSummary, List.mem_mergeSort, summaryJoin]
    exact List.mem_filterMap.mpr ⟨(k, specAgg BorrowRec.book k s.borrows),
      hmem, by rw [hb]⟩

/-- C8: the statistics report equals, over the current ledger: the record
count, the total quantity borrowed, the count of records with `dueDate`
strictly before now, the by-month rows (correct per-month count and
quantity, one row per month, sorted descending by year then month, at most
12, and only the most recent months with borrows are kept when more than
12 exist), and the top books (correct joined aggregates, one row per book,
sorted descending by total borrowed, at most 5, and only books with
maximal totals are kept when more than 5 qualify). -/
theorem C8_statistics (s : St) (now : Nat) :
    (getBorrowStatistics s now).totalBorrows = s.borrows.length ∧
    (getBorrowStatistics s now).totalQuantityBorrowed
      = (s.borrows.map BorrowRec.quantity).sum ∧
    (getBorrowStatistics s now).overdueCount
      = (s.borrows.filter fun r => r.dueDate < now).length ∧
    List.Pairwise (fun a b => monthDesc a b = true)
      (getBorrowStatistics s now).borrowsByMonth ∧
    (getBorrowStatistics s now).borrowsByMonth.length ≤ 12 ∧
    ((getBorrowStatistics s now).borrowsByMonth.map rowKey).Nodup ∧
    (∀ g ∈ (getBorrowStatistics s now).borrowsByMonth,
      g.count = (keyFilter monthKey (rowKey g) s.borrows).length ∧
      g.quantity = ((keyFilter monthKey (rowKey g) s.borrows).map
        BorrowRec.quantity).sum ∧
      keyFilter monthKey (rowKey g) s.borrows ≠ []) ∧
    (∀ r ∈ s.borrows,
      monthKey r ∉ (getBorrowStatistics s now).borrowsByMonth.map rowKey →
      (getBorrowStatistics s now).borrowsByMonth.length = 12 ∧
      ∀ g ∈ (getBorrowStatistics s now).borrowsByMonth,
        monthKeyGE (rowKey g) (monthKey r) = true) ∧
    List.Pairwise (fun a b => topDesc a b = true)
      (getBorrowStatistics s now).mostBorrowedBooks ∧
    (getBorrowStatistics s now).mostBorrowedBooks.length ≤ 5 ∧
    ((getBorrowStatistics s now).mostBorrowedBooks.map TopBook.bookId).Nodup ∧
    (∀ g ∈ (getBorrowStatistics s now).mostBorrowedBooks, ∃ b,
      List.lookup g.bookId s.books = some b ∧
      g.title = b.title ∧ g.author = b.author ∧
      g.totalBorrowed = ((keyFilter BorrowRec.book g.bookId s.borrows).map
        BorrowRec.quantity).sum ∧
      g.borrowCount = (keyFilter BorrowRec.book g.bookId s.borrows).length ∧
      keyFilter BorrowRec.book g.bookId s.borrows ≠ []) ∧
    ∀ k b, List.lookup k s.books = some b →
      keyFilter BorrowRec.book k s.borrows ≠ [] →
      k ∉ (getBorrowStatistics s now).mostBorrowedBooks.map TopBook.bookId →
      (getBorrowStatistics s now).mostBorrowedBooks.length = 5 ∧
      ∀ g ∈ (getBorrowStatistics s now).mostBorrowedBooks,
        ((keyFilter BorrowRec.book k s.borrows).map BorrowRec.quantity).sum
          ≤ g.totalBorrowed := by
  have hbm : (getBorrowStatistics s now).borrowsByMonth
      = (List.mergeSort ((groupBorrows monthKey s.borrows).map monthRow)
          monthDesc).take 12 := rfl
  have htb : (getBorrowStatistics s now).mostBorrowedBooks
      = (List.mergeSort (topJoin s (groupBorrows BorrowRec.book s.borrows))
          topDesc).take 5 := rfl
  have hrowkeys : ((groupBorrows monthKey s.borrows).map monthRow).map rowKey
      = (groupBorrows monthKey s.borrows).map Prod.fst := by
    have hfun : rowKey ∘ monthRow
        = (Prod.fst : (Nat × Nat) × Agg → Nat × Nat) := by
      funext p
      simp [rowKey, monthRow]
    rw [List.map_map, hfun]
  have hMsorted : List.Pairwise (fun a b => monthDesc a b = true)
      (List.mergeSort ((groupBorrows monthKey s.borrows).map monthRow)
        monthDesc) :=
    List.sorted_mergeSort monthDesc_trans monthDesc_total _
  have hTsorted : List.Pairwise (fun a b => topDesc a b = true)
      (List.mergeSort (topJoin s (groupBorrows BorrowRec.book s.borrows))
        topDesc) :=
    List.sorted_mergeSort topDesc_trans topDesc_total _
  refine ⟨?_, ?_, ?_, ?_, ?_, ?_, ?_, ?_, ?_, ?_, ?_, ?_, ?_⟩
  · show (countStage s.borrows).getD 0 = s.borrows.length
    unfold countStage
    by_cases he : s.borrows.isEmpty = true
    · have hnil := List.isEmpty_iff.mp he
      simp [he, hnil]
    · rw [if_neg he]
      rfl
  · show (totalQtyStage s.borrows).getD 0 = (s.borrows.map BorrowRec.quantity).sum
    unfold totalQtyStage
    by_cases he : s.borrows.isEmpty = true
    · have hnil := List.isEmpty_iff.mp he
      simp [he, hnil]
    · rw [if_neg he]
      exact sumQuantities_eq s.borrows
  · show (countStage (s.borrows.filter fun r => r.dueDate < now)).getD 0 = _
    unfold countStage
    by_cases he : (s.borrows.filter fun r => r.dueDate < now).isEmpty = true
    · have hnil := List.isEmpty_iff.mp he
      simp [he, hnil]
    · rw [if_neg he]
      rfl
  · rw [hbm]
    exact List.Pairwise.sublist (List.take_sublist _ _) hMsorted
  · rw [hbm, List.length_take]
    omega
  · rw [hbm, List.map_take]
    refine List.Sublist.nodup (List.take_sublist _ _) ?_
    have hperm : ((List.mergeSort ((groupBorrows monthKey s.borrows).map monthRow)
        monthDesc).map rowKey).Perm
        (((groupBorrows monthKey s.borrows).map monthRow).map rowKey) :=
      (List.mergeSort_perm _ _).map _
    rw [hperm.nodup_iff, hrowkeys]
    exact groupBorrows_keys_nodup _ _
  · intro g hg
    rw [hbm] at hg
    have hg2 : g ∈ List.mergeSort ((groupBorrows monthKey s.borrows).map monthRow)
        monthDesc := (List.take_sublist _ _).subset hg
    rw [List.mem_mergeSort] at hg2
    obtain ⟨p, hp, hgp⟩ := List.mem_map.mp hg2
    obtain ⟨hval, hne⟩ := groupBorrows_mem_val monthKey s.borrows hp
    subst hgp
    have hkey2 : rowKey (monthRow p) = p.1 := by
      simp [rowKey, monthRow]
    rw [hkey2]
    refine ⟨?_, ?_, hne⟩
    · show p.2.cnt = _
      rw [hval]
      rfl
    · show p.2.totalQty = _
      rw [hval]
      rfl
  · intro r hr hnot
    have hne : keyFilter monthKey (monthKey r) s.borrows ≠ [] := by
      apply List.ne_nil_of_mem (a := r)
      exact List.mem_filter.mpr ⟨hr, by simp⟩
    have hmemk : monthKey r ∈ (groupBorrows monthKey s.borrows).map Prod.fst :=
      (groupBorrows_mem_keys monthKey s.borrows (monthKey r)).mpr hne
    obtain ⟨p, hp, hpk⟩ := List.mem_map.mp hmemk
    have hrow : monthRow p ∈ List.mergeSort
        ((groupBorrows monthKey s.borrows).map monthRow) monthDesc := by
      rw [List.mem_mergeSort]
      exact List.mem_map.mpr ⟨p, hp, rfl⟩
    have hrowkey : rowKey (monthRow p) = monthKey r := by
      rw [show rowKey (monthRow p) = p.1 from by simp [rowKey, monthRow], hpk]
    have hdrop : monthRow p ∈ (List.mergeSort
        ((groupBorrows monthKey s.borrows).map monthRow) monthDesc).drop 12 := by
      rcases mem_take_or_drop 12 hrow with h | h
      · exfalso
        apply hnot
        rw [hbm]
        exact List.mem_map.mpr ⟨monthRow p, h, hrowkey⟩
      · exact h
    have hlen := length_of_mem_drop hdrop
    constructor
    · rw [hbm, List.length_take]
      rw [List.length_mergeSort] at hlen
      rw [List.length_mergeSort]
      omega
    · intro g hg
      rw [hbm] at hg
      have h2 := pairwise_take_drop hMsorted 12 g hg (monthRow p) hdrop
      rw [← hrowkey]
      exact h2
  · rw [htb]
    exact List.Pairwise.sublist (List.take_sublist _ _) hTsorted
  · rw [htb, List.length_take]
    omega
  · rw [htb, List.map_take]
    refine List.Sublist.nodup (List.take_sublist _ _) ?_
    have hperm : ((List.mergeSort (topJoin s (groupBorrows BorrowRec.book s.borrows))
        topDesc).map TopBook.bookId).Perm
        ((topJoin s (groupBorrows BorrowRec.book s.borrows)).map TopBook.bookId) :=
      (List.mergeSort_perm _ _).map _
    rw [hperm.nodup_iff]
    exact List.Sublist.nodup (topJoin_keys_sublist s _)
      (groupBorrows_keys_nodup _ _)
  · intro g hg
    rw [htb] at hg
    have hg2 : g ∈ List.mergeSort (topJoin s (groupBorrows BorrowRec.book s.borrows))
        topDesc := (List.take_sublist _ _).subset hg
    rw [List.mem_mergeSort, topJoin] at hg2
    obtain ⟨p, hp, hfp⟩ := List.mem_filterMap.mp hg2
    cases hl : List.lookup p.1 s.books with
    | none => rw [hl] at hfp; cases hfp
    | some b =>
      rw [hl] at hfp
      cases hfp
      obtain ⟨hval, hne⟩ := groupBorrows_mem_val BorrowRec.book s.borrows hp
      rw [hval]
      exact ⟨b, hl, rfl, rfl, rfl, rfl, hne⟩
  · intro k b hb hne hnot
    have hfk := groupBorrows_findKey BorrowRec.book s.borrows k
    rw [if_neg hne] at hfk
    have hmem := findKey_some_mem hfk
    have hrow : (⟨k, b.title, b.author,
        (specAgg BorrowRec.book k s.borrows).totalQty,
        (specAgg BorrowRec.book k s.borrows).cnt⟩ : TopBook) ∈
        List.mergeSort (topJoin s (groupBorrows BorrowRec.book s.borrows))
          topDesc := by
      rw [List.mem_mergeSort, topJoin]
      exact List.mem_filterMap.mpr ⟨(k, specAgg BorrowRec.book k s.borrows),
        hmem, by rw [hb]⟩
    have hdrop : (⟨k, b.title, b.author,
        (specAgg BorrowRec.book k s.borrows).totalQty,
        (specAgg BorrowRec.book k s.borrows).cnt⟩ : TopBook) ∈
        (List.mergeSort (topJoin s (groupBorrows BorrowRec.book s.borrows))
          topDesc).drop 5 := by
      rcases mem_take_or_drop 5 hrow with h | h
      · exfalso
        apply hnot
        rw [htb]
        exact List.mem_map.mpr ⟨_, h, rfl⟩
      · exact h
    have hlen := length_of_mem_drop hdrop
    constructor
    · rw [htb, List.length_take]
      omega
    · intro g hg
      rw [htb] at hg
      have h2 := pairwise_take_drop hTsorted 5 g hg _ hdrop
      simpa [topDesc, specAgg] using h2

unseal List.merge List.mergeSort in
/-- C7 witness: the summary of the demo ledger (one in-catalog book and
one dangling reference) is the single correctly aggregated row. -/
theorem C7_borrowSummary_witness :
    (∃ e ∈ getBorrowSummary demoStBorrows, e.bookId = demoId) ∧
    (getBorrowSummary demoStBorrows).map SummaryEntry.totalQuantityBorrowed
      = [2] := by
  refine ⟨(C7_borrowSummary demoStBorrows).2.2.2 demoId demoBook
    (by decide) (by decide), by decide⟩

unseal List.merge List.mergeSort in
/-- C8 witness: on the demo ledger at time 2500 the report counts 2
records totalling 3 copies, 1 overdue record, the single month row for
January 1970, and the single in-catalog top book; the by-month entries
clause applies to that concrete row. -/
theorem C8_statistics_witness :
    (getBorrowStatistics demoStBorrows 2500).totalBorrows = 2 ∧
    (getBorrowStatistics demoStBorrows 2500).totalQuantityBorrowed = 3 ∧
    (getBorrowStatistics demoStBorrows 2500).overdueCount = 1 ∧
    (getBorrowStatistics demoStBorrows 2500).borrowsByMonth
      = [⟨1970, 1, 2, 3⟩] ∧
    (getBorrowStatistics demoStBorrows 2500).mostBorrowedBooks
      = [⟨demoId, "Dune", "Frank Herbert", 2, 1⟩] ∧
    keyFilter monthKey (1970, 1) demoStBorrows.borrows ≠ [] := by
  have h := C8_statistics demoStBorrows 2500
  have hmem : (⟨1970, 1, 2, 3⟩ : MonthGroup)
      ∈ (getBorrowStatistics demoStBorrows 2500).borrowsByMonth := by decide
  refine ⟨h.1.trans (by decide), h.2.1.trans (by decide),
    h.2.2.1.trans (by decide), by decide, by decide, ?_⟩
  exact (h.2.2.2.2.2.2.1 ⟨1970, 1, 2, 3⟩ hmem).2.2

/-- C9: the four reporting endpoints — summary, overdue, per-book total
and statistics — issue only read store calls, so running any of them
returns the store (every book and borrow record) unchanged. -/
theorem C9_reporting_pure (s : St) (now : Nat) (bookId : String) :
    (borrowSummaryOp s).2 = s ∧
    (overdueBooksOp s now).2 = s ∧
    (getTotalBorrowedForBookEp s bookId).2 = s ∧
    (statisticsOp s now).2 = s := by
  have hep : readOnly (totalBorrowedEpCmds s bookId) = true := by
    unfold totalBorrowedEpCmds
    split
    · rfl
    · cases findBook s bookId <;> rfl
  exact ⟨runCmds_readOnly (by rfl) s, runCmds_readOnly (by rfl) s,
    runCmds_readOnly hep s, runCmds_readOnly (by rfl) s⟩

/-- C10: at the `GET /borrows/book/:bookId` endpoint, a malformed id
yields the validation error and a well-formed id of a nonexistent book
yields NotFound — never the `ok` payload with total 0 — and in both cases
the store is unchanged. -/
theorem C10_totalBorrowed_endpoint (s : St) (bookId : String) :
    (isValidObjectId bookId = false →
      getTotalBorrowedForBookEp s bookId = (TotalRes.invalidId, s)) ∧
    (isValidObjectId bookId = true → findBook s bookId = none →
      getTotalBorrowedForBookEp s bookId = (TotalRes.notFound, s) ∧
      ∀ bid t q c, TotalRes.notFound ≠ TotalRes.ok bid t q c) := by
  constructor
  · intro hv
    unfold getTotalBorrowedForBookEp totalBorrowedEpCmds
    simp [hv]
    rfl
  · intro hv hn
    unfold getTotalBorrowedForBookEp totalBorrowedEpCmds
    simp only [hv, hn, Bool.not_true, Bool.false_eq_true, if_false]
    exact ⟨rfl, fun bid t q c h => by cases h⟩

/-- C10 witness: a malformed id and a well-formed missing id against the
demo store. -/
theorem C10_totalBorrowed_witness :
    getTotalBorrowedForBookEp demoSt "not-an-objectid"
      = (TotalRes.invalidId, demoSt) ∧
    getTotalBorrowedForBookEp demoSt missingId
      = (TotalRes.notFound, demoSt) :=
  ⟨(C10_totalBorrowed_endpoint demoSt "not-an-objectid").1 (by decide),
   ((C10_totalBorrowed_endpoint demoSt missingId).2 (by decide) (by decide)).1⟩

end BookHive



